import Mathlib

set_option autoImplicit false

/-!
Shallow embedding of the CSC-Bot nickname voting workflow
(`src/commands/nickname.ts`) and the loot domain service, together with
proofs of the spec's claims about them.
-/

namespace CSCBot

/-! ## Nickname voting: data model (`src/commands/nickname.ts`) -/

/-- Embedding of `type Vote = "YES" | "NO"`. -/
inductive Vote where
  | yes
  | no
deriving DecidableEq, Repr

/-- Embedding of `interface UserVote { vote: Vote; trusted: boolean }`. -/
structure UserVote where
  vote : Vote
  trusted : Bool
deriving DecidableEq, Repr

/-- Embedding of `getWeightOfUserVote`: `vote.trusted ? 2 : 1`. -/
def getWeightOfUserVote (v : UserVote) : Nat :=
  if v.trusted then 2 else 1

/-- Embedding of `interface Suggestion { nicknameUserID: string; nickname: string }`. -/
structure Suggestion where
  nicknameUserID : String
  nickname : String
deriving DecidableEq, Repr

/-- A JavaScript object used as a string-keyed map (`Record<string, T>`):
an insertion-ordered association list whose keys stay pairwise distinct
because every update goes through `setKey`. -/
abbrev JsMap (α : Type) := List (String × α)

/-- Embedding of the JS assignment `obj[k] = v`: when the key is present its
value is replaced in place, otherwise the new entry is appended (JS objects
keep insertion order). -/
def setKey {α : Type} : JsMap α → String → α → JsMap α
  | [], k, v => [(k, v)]
  | p :: rest, k, v => if p.1 == k then (k, v) :: rest else p :: setKey rest k v

/-- Embedding of the JS read `obj[k]`, with `undefined` as `none`. -/
def getKey {α : Type} (m : JsMap α) (k : String) : Option α :=
  (m.find? (fun p => p.1 == k)).map Prod.snd

/-- A vote map `Record<string, UserVote>` as held in `idVoteMap[messageid]`. -/
abbrev VoteMap := JsMap UserVote

/-- The in-memory and persisted state the nickname workflow touches:
`ongoingSuggestions`, `idVoteMap` and the nickname table rows
(`(userId, nickName)` pairs). -/
structure BotState where
  ongoingSuggestions : JsMap Suggestion
  idVoteMap : JsMap VoteMap
  nicknames : List (String × String)
deriving DecidableEq, Repr

/-- Embedding of `NicknameButtonHandler.threshold = 5`. -/
def threshold : Nat := 5

/-- Embedding of the inline reduce
`votes.reduce((sum, uservote) => sum + getWeightOfUserVote(uservote), 0)`. -/
def voteWeightSum (votes : List UserVote) : Nat :=
  votes.foldl (fun s uv => s + getWeightOfUserVote uv) 0

/-- The summed weight the handler computes for one vote value:
`Object.values(userVoteMap).filter(uv => uv.vote === v).reduce(...)`. -/
def tallyWeight (vm : VoteMap) (v : Vote) : Nat :=
  voteWeightSum ((vm.map Prod.snd).filter (fun uv => uv.vote == v))

/-- Modelled from the spec: `Nicknames.insertNickname` lives in
`src/storage/model/Nickname.ts`, which is not part of the sources; the spec
says nickname text is unique per user and that a duplicate insert raises a
constraint error that the caller catches. -/
def insertNickname (rows : List (String × String)) (userId nick : String) :
    Except Unit (List (String × String)) :=
  if (userId, nick) ∈ rows then Except.error () else Except.ok (rows ++ [(userId, nick)])

/-- The replies `NicknameButtonHandler.handleInteraction` can produce. -/
inductive HandlerReply where
  | suggestionNotFound
  | notTrusted
  | rejected (nickname userId : String)
  | persistFailed (nickname userId : String)
  | accepted (nickname userId : String)
  | voteRecorded
deriving DecidableEq, Repr

/-- Embedding of `NicknameButtonHandler.handleInteraction`.  Inputs are the
vote message id, the interacting user's id, that user's trust flag and the
pressed button's custom id; the result is the state after the interaction
and the reply sent. -/
def handleInteraction (st : BotState) (messageId userId : String)
    (isTrust : Bool) (customId : String) : BotState × HandlerReply :=
  match getKey st.ongoingSuggestions messageId with
  | none => (st, HandlerReply.suggestionNotFound)
  | some suggestion =>
    -- `getUserVoteMap` creates the per-message map on first access
    let vm0 := (getKey st.idVoteMap messageId).getD []
    if !isTrust then
      ({ st with idVoteMap := setKey st.idVoteMap messageId vm0 }, HandlerReply.notTrusted)
    else
      let vm1 :=
        if customId == "nicknameVoteYes" then setKey vm0 userId ⟨Vote.yes, isTrust⟩
        else if customId == "nicknameVoteNo" then setKey vm0 userId ⟨Vote.no, isTrust⟩
        else vm0
      let st1 : BotState := { st with idVoteMap := setKey st.idVoteMap messageId vm1 }
      let votes := vm1.map Prod.snd
      if threshold ≤ voteWeightSum (votes.filter (fun uv => uv.vote == Vote.no)) then
        (st1, HandlerReply.rejected suggestion.nickname suggestion.nicknameUserID)
      else if threshold ≤ voteWeightSum (votes.filter (fun uv => uv.vote == Vote.yes)) then
        match insertNickname st1.nicknames suggestion.nicknameUserID suggestion.nickname with
        | Except.error _ =>
          (st1, HandlerReply.persistFailed suggestion.nickname suggestion.nicknameUserID)
        | Except.ok ns =>
          ({ st1 with nicknames := ns },
            HandlerReply.accepted suggestion.nickname suggestion.nicknameUserID)
      else
        (st1, HandlerReply.voteRecorded)

/-- Embedding of `Nickname.createNickNameVote`: registers the suggestion under
the fresh vote message id and silently records an initial `YES` vote for the
target user, with the target's trust flag captured at creation time. -/
def createNickNameVote (st : BotState) (messageId targetUserId nickname : String)
    (targetIsTrusted : Bool) : BotState :=
  let vm0 := (getKey st.idVoteMap messageId).getD []
  { st with
    ongoingSuggestions := setKey st.ongoingSuggestions messageId ⟨targetUserId, nickname⟩
    idVoteMap := setKey st.idVoteMap messageId (setKey vm0 targetUserId ⟨Vote.yes, targetIsTrusted⟩) }

/-- Custom id of the button a voter presses for the given vote value. -/
def buttonId : Vote → String
  | Vote.yes => "nicknameVoteYes"
  | Vote.no => "nicknameVoteNo"

/-- The vote map after a trusted voter's button press is recorded. -/
def updatedVoteMap (st : BotState) (messageId userId : String) (v : Vote) : VoteMap :=
  setKey ((getKey st.idVoteMap messageId).getD []) userId ⟨v, true⟩

/-- The state right after a trusted voter's button press is recorded, before
any tally branch further changes it. -/
def afterVoteState (st : BotState) (messageId userId : String) (v : Vote) : BotState :=
  { st with idVoteMap := setKey st.idVoteMap messageId (updatedVoteMap st messageId userId v) }

/-! ## Loot domain service (`src/storage/lootService` module of the sources)

Timestamps are abstract `Nat` instants; the database-side clock value
`current_timestamp` is passed to every operation and query as an explicit
`now` argument. -/

/-- A row of the `loot` table. -/
structure LootRow where
  id : Nat
  displayName : String
  description : String
  lootKindId : Nat
  usedImage : Option String
  winnerId : String
  claimedAt : Nat
  guildId : String
  channelId : String
  messageId : String
  origin : String
  predecessor : Option Nat
  deletedAt : Option Nat
deriving DecidableEq, Repr

/-- A row of the `lootAttribute` table. -/
structure LootAttributeRow where
  id : Nat
  lootId : Nat
  attributeKindId : Nat
  attributeClassId : Nat
  displayName : String
  shortDisplay : String
  color : Option Nat
  deletedAt : Option Nat
deriving DecidableEq, Repr

/-- Embedding of `interface LootAttributeTemplate`. -/
structure LootAttributeTemplate where
  id : Nat
  classId : Nat
  displayName : String
  shortDisplay : String
  color : Option Nat
  initialDropWeight : Option Nat
deriving DecidableEq, Repr

/-- The loot tables plus the autoincrement counters the store assigns fresh
row ids from. -/
structure LootDb where
  loot : List LootRow
  lootAttribute : List LootAttributeRow
  nextLootId : Nat
  nextAttrId : Nat
deriving DecidableEq, Repr

/-- Embedding of the `notDeleted` filter:
`deletedAt is null or deletedAt > current_timestamp`. -/
def notDeletedAt (now : Nat) (deletedAt : Option Nat) : Bool :=
  match deletedAt with
  | none => true
  | some d => now < d

/-- The `notDeleted` filter applied to a loot row. -/
def notDeleted (now : Nat) (r : LootRow) : Bool :=
  notDeletedAt now r.deletedAt

/-- Embedding of the `hasAttribute(attributeKindId)` correlated subquery:
`id in (select lootId from lootAttribute where attributeKindId = k)` — note
that the subquery has no `notDeleted` filter. -/
def hasAttribute (db : LootDb) (attributeKindId : Nat) (r : LootRow) : Bool :=
  ((db.lootAttribute.filter (fun a => a.attributeKindId == attributeKindId)).map
    (fun a => a.lootId)).contains r.id

/-- Embedding of `findOfUser`. -/
def findOfUser (db : LootDb) (userId : String) (now : Nat) : List LootRow :=
  db.loot.filter (fun r => r.winnerId == userId && notDeleted now r)

/-- Embedding of `findOfMessage` (`executeTakeFirst`). -/
def findOfMessage (db : LootDb) (messageId : String) (now : Nat) : Option LootRow :=
  (db.loot.filter (fun r => r.messageId == messageId && notDeleted now r)).head?

/-- Embedding of `getUserLootsByTypeId`. -/
def getUserLootsByTypeId (db : LootDb) (userId : String) (lootKindId : Nat) (now : Nat) :
    List LootRow :=
  db.loot.filter (fun r => r.winnerId == userId && r.lootKindId == lootKindId && notDeleted now r)

/-- Embedding of `getUserLootsWithAttribute`. -/
def getUserLootsWithAttribute (db : LootDb) (userId : String) (attributeKindId : Nat)
    (now : Nat) : List LootRow :=
  db.loot.filter (fun r =>
    r.winnerId == userId && notDeleted now r && hasAttribute db attributeKindId r)

/-- Embedding of `getUserLootById` (`executeTakeFirst`). -/
def getUserLootById (db : LootDb) (userId : String) (lootId : Nat) (now : Nat) :
    Option LootRow :=
  (db.loot.filter (fun r => r.winnerId == userId && r.id == lootId && notDeleted now r)).head?

/-- Embedding of `getLootsByKindId`. -/
def getLootsByKindId (db : LootDb) (lootKindId : Nat) (now : Nat) : List LootRow :=
  db.loot.filter (fun r => r.lootKindId == lootKindId && notDeleted now r)

/-- Embedding of `getLootsWithAttribute`. -/
def getLootsWithAttribute (db : LootDb) (attributeKindId : Nat) (now : Nat) : List LootRow :=
  db.loot.filter (fun r => notDeleted now r && hasAttribute db attributeKindId r)

/-- Embedding of `deleteLoot`: `update loot set deletedAt = current_timestamp
where id = lootId returning id`, with `executeTakeFirstOrThrow` failing when
no row matched. -/
def deleteLoot (db : LootDb) (lootId : Nat) (now : Nat) : Except Unit (LootDb × Nat) :=
  if db.loot.any (fun r => r.id == lootId) then
    Except.ok
      ({ db with
          loot := db.loot.map (fun r =>
            if r.id == lootId then { r with deletedAt := some now } else r) },
        lootId)
  else
    Except.error ()

/-- Embedding of `transferLootToUser`: select the source row
(`executeTakeFirstOrThrow`, no active filter), soft-delete it, then insert a
clone of the row as read before the delete with the owner replaced, the
origin forced to `"owner-transfer"`, the predecessor set only when tracking
is requested, and the `id` dropped so the insert assigns a fresh one. -/
def transferLootToUser (db : LootDb) (lootId : Nat) (userId : String)
    (trackPredecessor : Bool) (now : Nat) : Except Unit (LootDb × LootRow) :=
  match db.loot.find? (fun r => r.id == lootId) with
  | none => Except.error ()
  | some oldLoot =>
    match deleteLoot db lootId now with
    | Except.error e => Except.error e
    | Except.ok (db1, _) =>
      let newRow : LootRow :=
        { oldLoot with
          id := db1.nextLootId
          winnerId := userId
          origin := "owner-transfer"
          predecessor := if trackPredecessor then some lootId else none }
      Except.ok
        ({ db1 with loot := db1.loot ++ [newRow], nextLootId := db1.nextLootId + 1 }, newRow)

/-- Embedding of `addLootAttributeIfNotPresent`: an insert with
`onConflict(oc => oc.doNothing())` followed by `executeTakeFirstOrThrow`.
Modelled from the spec: the `(lootId, attributeKindId)` uniqueness that makes
the insert conflict comes from the spec's data-model invariant — the table
schema (`db/model`) is not part of the sources.  On conflict the insert does
nothing and returns no row, so `executeTakeFirstOrThrow` raises. -/
def addLootAttributeIfNotPresent (db : LootDb) (lootId : Nat)
    (attributeTemplate : LootAttributeTemplate) : Except Unit (LootDb × LootAttributeRow) :=
  if db.lootAttribute.any (fun a => a.lootId == lootId && a.attributeKindId == attributeTemplate.id) then
    Except.error ()
  else
    let row : LootAttributeRow :=
      { id := db.nextAttrId
        lootId := lootId
        attributeKindId := attributeTemplate.id
        attributeClassId := attributeTemplate.classId
        displayName := attributeTemplate.displayName
        shortDisplay := attributeTemplate.shortDisplay
        color := attributeTemplate.color
        deletedAt := none }
    Except.ok
      ({ db with lootAttribute := db.lootAttribute ++ [row], nextAttrId := db.nextAttrId + 1 },
        row)

/-! ## Sample data used by witnesses and concrete scenarios -/

/-- A concrete suggestion for the vote message `"msg1"`. -/
def sampleSuggestion : Suggestion := ⟨"target", "Spitzname"⟩

/-- A state holding the sample suggestion under `"msg1"` with the given vote
map and an empty nickname table. -/
def sampleState (vm : VoteMap) : BotState :=
  ⟨[("msg1", sampleSuggestion)], [("msg1", vm)], []⟩

/-- Two trusted `YES` votes already recorded. -/
def twoTrustedYes : VoteMap := [("u1", ⟨Vote.yes, true⟩), ("u2", ⟨Vote.yes, true⟩)]

/-- Two trusted `NO` votes already recorded. -/
def twoTrustedNo : VoteMap := [("u1", ⟨Vote.no, true⟩), ("u2", ⟨Vote.no, true⟩)]

/-- A concrete attribute template (kind 7, class 2). -/
def sampleAttrTemplate : LootAttributeTemplate := ⟨7, 2, "Verstrahlt", "rad", some 3, none⟩

/-- The attribute row the first `addLootAttributeIfNotPresent` insert yields
for `sampleAttrTemplate` on loot 1 in an empty store. -/
def sampleAttrRow : LootAttributeRow := ⟨1, 1, 7, 2, "Verstrahlt", "rad", some 3, none⟩

/-! ## Helper lemmas about the JS map embedding -/

theorem getKey_setKey_self {α : Type} (m : JsMap α) (k : String) (v : α) :
    getKey (setKey m k v) k = some v := by
  induction m with
  | nil => simp [setKey, getKey]
  | cons p rest ih =>
    by_cases h : p.1 == k
    · simp [setKey, getKey, h]
    · simp only [setKey, h, if_neg] at ih ⊢
      simpa [getKey, List.find?, h] using ih

theorem setKey_setKey_same {α : Type} (m : JsMap α) (k : String) (v1 v2 : α) :
    setKey (setKey m k v1) k v2 = setKey m k v2 := by
  induction m with
  | nil => simp [setKey]
  | cons p rest ih =>
    by_cases h : p.1 == k
    · simp [setKey, h]
    · simp [setKey, h, ih]

theorem mem_keys_setKey {α : Type} (m : JsMap α) (k k2 : String) (v : α) :
    k2 ∈ (setKey m k v).map Prod.fst ↔ (k2 = k ∨ k2 ∈ m.map Prod.fst) := by
  induction m with
  | nil => simp [setKey]
  | cons p rest ih =>
    by_cases h : p.1 == k
    · have hk : p.1 = k := by simpa using h
      rw [setKey, if_pos h, List.map_cons, List.mem_cons, List.map_cons, List.mem_cons, hk]
      tauto
    · rw [setKey, if_neg h, List.map_cons, List.mem_cons, List.map_cons, List.mem_cons, ih]
      tauto

theorem keys_nodup_setKey {α : Type} (m : JsMap α) (k : String) (v : α)
    (h : (m.map Prod.fst).Nodup) : ((setKey m k v).map Prod.fst).Nodup := by
  induction m with
  | nil => simp [setKey]
  | cons p rest ih =>
    rw [List.map_cons, List.nodup_cons] at h
    by_cases hpk : p.1 == k
    · have hk : p.1 = k := by simpa using hpk
      rw [setKey, if_pos hpk, List.map_cons, List.nodup_cons]
      exact ⟨hk ▸ h.1, h.2⟩
    · rw [setKey, if_neg hpk, List.map_cons, List.nodup_cons]
      refine ⟨?_, ih h.2⟩
      intro hmem
      rcases (mem_keys_setKey rest k p.1 v).mp hmem with h1 | h2
      · exact (by simpa using hpk : p.1 ≠ k) h1
      · exact h.1 h2

theorem filter_key_eq_nil_of_not_mem {α : Type} (m : JsMap α) (k : String)
    (h : k ∉ m.map Prod.fst) : m.filter (fun p => p.1 == k) = [] := by
  induction m with
  | nil => simp
  | cons p rest ih =>
    simp only [List.map_cons, List.mem_cons, not_or] at h
    have hpk : (p.1 == k) = false :=
      beq_eq_false_iff_ne.mpr (fun he => h.1 he.symm)
    simp [List.filter_cons, hpk, ih h.2]

theorem length_filter_setKey_self {α : Type} (m : JsMap α) (k : String) (v : α)
    (h : (m.map Prod.fst).Nodup) :
    ((setKey m k v).filter (fun p => p.1 == k)).length = 1 := by
  induction m with
  | nil => simp [setKey]
  | cons p rest ih =>
    simp only [List.map_cons, List.nodup_cons] at h
    by_cases hpk : p.1 == k
    · have hk : p.1 = k := by simpa using hpk
      have : rest.filter (fun p => p.1 == k) = [] :=
        filter_key_eq_nil_of_not_mem rest k (hk ▸ h.1)
      simp [setKey, hpk, List.filter_cons, this]
    · simp [setKey, hpk, List.filter_cons, ih h.2]

/-! ## Helper lemmas about the weighted tally -/

theorem foldl_weight_eq (l : List UserVote) : ∀ a : Nat,
    l.foldl (fun s uv => s + getWeightOfUserVote uv) a = a + (l.map getWeightOfUserVote).sum := by
  induction l with
  | nil => intro a; simp
  | cons uv rest ih =>
    intro a
    simp only [List.foldl_cons, List.map_cons, List.sum_cons, ih]
    omega

theorem voteWeightSum_eq (l : List UserVote) :
    voteWeightSum l = (l.map getWeightOfUserVote).sum := by
  simpa [voteWeightSum] using foldl_weight_eq l 0

theorem weight_sum_split (l : List UserVote) :
    (l.map getWeightOfUserVote).sum =
      2 * (l.filter (fun uv => uv.trusted)).length +
        (l.filter (fun uv => !uv.trusted)).length := by
  induction l with
  | nil => simp
  | cons uv rest ih =>
    cases htr : uv.trusted <;>
      simp [getWeightOfUserVote, htr, List.filter_cons, ih] <;> omega

theorem tallyWeight_split (vm : VoteMap) (v : Vote) :
    tallyWeight vm v =
      2 * ((vm.map Prod.snd).filter (fun uv => uv.vote == v && uv.trusted)).length +
        ((vm.map Prod.snd).filter (fun uv => uv.vote == v && !uv.trusted)).length := by
  rw [tallyWeight, voteWeightSum_eq, weight_sum_split, List.filter_filter, List.filter_filter]
  simp [Bool.and_comm]

/-! ## Helper lemmas about the vote handler -/

theorem handleInteraction_trusted (st : BotState) (messageId userId : String) (v : Vote)
    (sugg : Suggestion) (hsugg : getKey st.ongoingSuggestions messageId = some sugg) :
    handleInteraction st messageId userId true (buttonId v) =
      (if threshold ≤ tallyWeight (updatedVoteMap st messageId userId v) Vote.no then
        (afterVoteState st messageId userId v,
          HandlerReply.rejected sugg.nickname sugg.nicknameUserID)
      else if threshold ≤ tallyWeight (updatedVoteMap st messageId userId v) Vote.yes then
        match insertNickname st.nicknames sugg.nicknameUserID sugg.nickname with
        | Except.error _ =>
          (afterVoteState st messageId userId v,
            HandlerReply.persistFailed sugg.nickname sugg.nicknameUserID)
        | Except.ok ns =>
          ({ afterVoteState st messageId userId v with nicknames := ns },
            HandlerReply.accepted sugg.nickname sugg.nicknameUserID)
      else (afterVoteState st messageId userId v, HandlerReply.voteRecorded)) := by
  cases v <;>
    simp [handleInteraction, hsugg, buttonId, updatedVoteMap, afterVoteState, tallyWeight]

theorem handleInteraction_state (st : BotState) (messageId userId : String) (v : Vote)
    (sugg : Suggestion) (hsugg : getKey st.ongoingSuggestions messageId = some sugg) :
    ((handleInteraction st messageId userId true (buttonId v)).1).ongoingSuggestions =
      st.ongoingSuggestions ∧
    ((handleInteraction st messageId userId true (buttonId v)).1).idVoteMap =
      setKey st.idVoteMap messageId (updatedVoteMap st messageId userId v) := by
  rw [handleInteraction_trusted st messageId userId v sugg hsugg]
  repeat' split
  all_goals exact ⟨rfl, rfl⟩

/-! ## Claim theorems -/

/-- C1: the nickname vote handler recomputes the tally over the full current
vote set with weight 2 for each trusted voter's vote and weight 1 for each
untrusted voter's vote, checks the "no" threshold first and the "yes"
threshold only otherwise (threshold 5): if the summed "no" weight reaches 5
the suggestion is rejected without persisting, else if the summed "yes"
weight reaches 5 the nickname is persisted; three trusted "yes" votes
(weight 6) accept, three trusted "no" votes (weight 6) reject, and a single
untrusted vote alone never reaches either threshold. -/
theorem vote_tally_weighted_thresholds (st : BotState) (messageId userId : String)
    (sugg : Suggestion)
    (hsugg : getKey st.ongoingSuggestions messageId = some sugg) :
    (∀ vm : VoteMap, ∀ v : Vote,
      tallyWeight vm v =
        2 * ((vm.map Prod.snd).filter (fun uv => uv.vote == v && uv.trusted)).length +
          ((vm.map Prod.snd).filter (fun uv => uv.vote == v && !uv.trusted)).length) ∧
    (∀ v : Vote,
      threshold ≤ tallyWeight (updatedVoteMap st messageId userId v) Vote.no →
        handleInteraction st messageId userId true (buttonId v) =
          (afterVoteState st messageId userId v,
            HandlerReply.rejected sugg.nickname sugg.nicknameUserID) ∧
        (afterVoteState st messageId userId v).nicknames = st.nicknames) ∧
    (∀ v : Vote, ∀ ns : List (String × String),
      tallyWeight (updatedVoteMap st messageId userId v) Vote.no < threshold →
      threshold ≤ tallyWeight (updatedVoteMap st messageId userId v) Vote.yes →
      insertNickname st.nicknames sugg.nicknameUserID sugg.nickname = Except.ok ns →
        handleInteraction st messageId userId true (buttonId v) =
          ({ afterVoteState st messageId userId v with nicknames := ns },
            HandlerReply.accepted sugg.nickname sugg.nicknameUserID) ∧
        (sugg.nicknameUserID, sugg.nickname) ∈ ns) ∧
    (∀ v : Vote,
      tallyWeight (updatedVoteMap st messageId userId v) Vote.no < threshold →
      tallyWeight (updatedVoteMap st messageId userId v) Vote.yes < threshold →
        handleInteraction st messageId userId true (buttonId v) =
          (afterVoteState st messageId userId v, HandlerReply.voteRecorded)) ∧
    (tallyWeight (updatedVoteMap (sampleState twoTrustedYes) "msg1" "u3" Vote.yes) Vote.yes = 6 ∧
      (handleInteraction (sampleState twoTrustedYes) "msg1" "u3" true "nicknameVoteYes").2 =
        HandlerReply.accepted "Spitzname" "target" ∧
      ((handleInteraction (sampleState twoTrustedYes) "msg1" "u3" true "nicknameVoteYes").1).nicknames =
        [("target", "Spitzname")]) ∧
    (tallyWeight (updatedVoteMap (sampleState twoTrustedNo) "msg1" "u3" Vote.no) Vote.no = 6 ∧
      (handleInteraction (sampleState twoTrustedNo) "msg1" "u3" true "nicknameVoteNo").2 =
        HandlerReply.rejected "Spitzname" "target" ∧
      ((handleInteraction (sampleState twoTrustedNo) "msg1" "u3" true "nicknameVoteNo").1).nicknames =
        []) ∧
    (∀ uid : String, ∀ uv : UserVote, uv.trusted = false →
      tallyWeight [(uid, uv)] Vote.no < threshold ∧ tallyWeight [(uid, uv)] Vote.yes < threshold) := by
  refine ⟨fun vm v => tallyWeight_split vm v, ?_, ?_, ?_, ?_, ?_, ?_⟩
  · intro v hno
    rw [handleInteraction_trusted st messageId userId v sugg hsugg, if_pos hno]
    exact ⟨rfl, rfl⟩
  · intro v ns hno hyes hins
    rw [handleInteraction_trusted st messageId userId v sugg hsugg, if_neg (by omega),
      if_pos hyes, hins]
    refine ⟨rfl, ?_⟩
    rw [insertNickname] at hins
    split at hins
    · exact absurd hins (by simp)
    · cases hins
      simp
  · intro v hno hyes
    rw [handleInteraction_trusted st messageId userId v sugg hsugg, if_neg (by omega),
      if_neg (by omega)]
  · exact ⟨by decide, by decide, by decide⟩
  · exact ⟨by decide, by decide, by decide⟩
  · intro uid uv htr
    cases hv : uv.vote <;>
      simp [tallyWeight, voteWeightSum, getWeightOfUserVote, htr, hv, threshold]

/-- Witness for C1 at a concrete input: with two trusted "no" votes recorded
and a third trusted voter pressing "no", the tally reaches the threshold and
the handler rejects without touching the nickname table. -/
theorem vote_tally_weighted_thresholds_witness :
    handleInteraction (sampleState twoTrustedNo) "msg1" "u4" true (buttonId Vote.no) =
      (afterVoteState (sampleState twoTrustedNo) "msg1" "u4" Vote.no,
        HandlerReply.rejected sampleSuggestion.nickname sampleSuggestion.nicknameUserID) ∧
    (afterVoteState (sampleState twoTrustedNo) "msg1" "u4" Vote.no).nicknames =
      (sampleState twoTrustedNo).nicknames :=
  (vote_tally_weighted_thresholds (sampleState twoTrustedNo) "msg1" "u4" sampleSuggestion
    (by decide)).2.1 Vote.no (by decide)

/-- C3 counterexample: at a concrete accepted (terminal) transition the
handler leaves both the suggestion entry and the vote-map entry in place,
contradicting the claim that terminal states delete them. -/
theorem terminal_cleanup_counterexample :
    (handleInteraction (sampleState twoTrustedYes) "msg1" "u3" true "nicknameVoteYes").2 =
      HandlerReply.accepted "Spitzname" "target" ∧
    getKey ((handleInteraction (sampleState twoTrustedYes) "msg1" "u3" true
      "nicknameVoteYes").1).ongoingSuggestions "msg1" = some sampleSuggestion ∧
    getKey ((handleInteraction (sampleState twoTrustedYes) "msg1" "u3" true
      "nicknameVoteYes").1).idVoteMap "msg1" =
      some [("u1", ⟨Vote.yes, true⟩), ("u2", ⟨Vote.yes, true⟩), ("u3", ⟨Vote.yes, true⟩)] :=
  ⟨by decide, by decide, by decide⟩

/-- C3 (amended): when vote handling reaches a terminal state (accepted or
rejected) the handler does not delete the ephemeral suggestion or vote-map
entries — both remain present after the interaction — while acceptance still
persists the nickname before the reply. -/
theorem terminal_states_retain_entries (st : BotState) (messageId userId : String)
    (v : Vote) (sugg : Suggestion)
    (hsugg : getKey st.ongoingSuggestions messageId = some sugg) :
    getKey ((handleInteraction st messageId userId true (buttonId v)).1).ongoingSuggestions
      messageId = some sugg ∧
    getKey ((handleInteraction st messageId userId true (buttonId v)).1).idVoteMap messageId =
      some (updatedVoteMap st messageId userId v) ∧
    ((handleInteraction st messageId userId true (buttonId v)).2 =
        HandlerReply.accepted sugg.nickname sugg.nicknameUserID →
      ((handleInteraction st messageId userId true (buttonId v)).1).nicknames =
        st.nicknames ++ [(sugg.nicknameUserID, sugg.nickname)]) := by
  obtain ⟨h1, h2⟩ := handleInteraction_state st messageId userId v sugg hsugg
  refine ⟨by rw [h1]; exact hsugg, by rw [h2]; exact getKey_setKey_self _ _ _, ?_⟩
  rw [handleInteraction_trusted st messageId userId v sugg hsugg]
  split
  · intro hacc; exact absurd hacc (by simp)
  split
  · cases hins : insertNickname st.nicknames sugg.nicknameUserID sugg.nickname with
    | error e => intro hacc; exact absurd hacc (by simp)
    | ok ns =>
      intro _
      rw [insertNickname] at hins
      split at hins
      · exact absurd hins (by simp)
      · cases hins; rfl
  · intro hacc; exact absurd hacc (by simp)

/-- Witness for the amended C3 at a concrete accepted transition. -/
theorem terminal_states_retain_entries_witness :
    getKey ((handleInteraction (sampleState twoTrustedYes) "msg1" "u3" true
      (buttonId Vote.yes)).1).ongoingSuggestions "msg1" = some sampleSuggestion ∧
    getKey ((handleInteraction (sampleState twoTrustedYes) "msg1" "u3" true
      (buttonId Vote.yes)).1).idVoteMap "msg1" =
      some (updatedVoteMap (sampleState twoTrustedYes) "msg1" "u3" Vote.yes) ∧
    ((handleInteraction (sampleState twoTrustedYes) "msg1" "u3" true (buttonId Vote.yes)).2 =
        HandlerReply.accepted sampleSuggestion.nickname sampleSuggestion.nicknameUserID →
      ((handleInteraction (sampleState twoTrustedYes) "msg1" "u3" true
        (buttonId Vote.yes)).1).nicknames =
        (sampleState twoTrustedYes).nicknames ++
          [(sampleSuggestion.nicknameUserID, sampleSuggestion.nickname)]) :=
  terminal_states_retain_entries (sampleState twoTrustedYes) "msg1" "u3" Vote.yes
    sampleSuggestion (by decide)

/-- C6: a voter's second vote replaces the first: after a trusted voter
presses "yes" and then "no" on the same suggestion, the vote map holds that
voter's "no" vote exactly where the "yes" vote was (the double update equals
a single "no" update, the voter has exactly one entry), so only "no" enters
the final tally. -/
theorem second_vote_overwrites_first (st : BotState) (messageId userId : String)
    (sugg : Suggestion)
    (hsugg : getKey st.ongoingSuggestions messageId = some sugg)
    (hnodup : ((((getKey st.idVoteMap messageId).getD []).map Prod.fst)).Nodup) :
    getKey ((handleInteraction ((handleInteraction st messageId userId true
        (buttonId Vote.yes)).1) messageId userId true (buttonId Vote.no)).1).idVoteMap
      messageId =
      some (setKey ((getKey st.idVoteMap messageId).getD []) userId ⟨Vote.no, true⟩) ∧
    (∀ vm : VoteMap, ∀ v1 v2 : UserVote,
      setKey (setKey vm userId v1) userId v2 = setKey vm userId v2) ∧
    getKey (setKey ((getKey st.idVoteMap messageId).getD []) userId ⟨Vote.no, true⟩) userId =
      some ⟨Vote.no, true⟩ ∧
    ((setKey ((getKey st.idVoteMap messageId).getD []) userId ⟨Vote.no, true⟩).filter
      (fun p => p.1 == userId)).length = 1 := by
  obtain ⟨h1, h2⟩ := handleInteraction_state st messageId userId Vote.yes sugg hsugg
  have hsugg1 : getKey ((handleInteraction st messageId userId true
      (buttonId Vote.yes)).1).ongoingSuggestions messageId = some sugg := by
    rw [h1]; exact hsugg
  obtain ⟨g1, g2⟩ := handleInteraction_state
    ((handleInteraction st messageId userId true (buttonId Vote.yes)).1)
    messageId userId Vote.no sugg hsugg1
  refine ⟨?_, fun vm v1 v2 => setKey_setKey_same vm userId v1 v2,
    getKey_setKey_self _ _ _, length_filter_setKey_self _ _ _ hnodup⟩
  rw [g2, getKey_setKey_self]
  congr 1
  rw [updatedVoteMap, h2, getKey_setKey_self]
  simp only [Option.getD_some]
  rw [updatedVoteMap, setKey_setKey_same]

/-- Witness for C6 at a concrete input: the voter "u1" votes "yes" and then
"no" on the sample suggestion. -/
theorem second_vote_overwrites_first_witness :
    getKey ((handleInteraction ((handleInteraction (sampleState []) "msg1" "u1" true
        (buttonId Vote.yes)).1) "msg1" "u1" true (buttonId Vote.no)).1).idVoteMap
      "msg1" =
      some (setKey ((getKey (sampleState []).idVoteMap "msg1").getD []) "u1" ⟨Vote.no, true⟩) ∧
    (∀ vm : VoteMap, ∀ v1 v2 : UserVote,
      setKey (setKey vm "u1" v1) "u1" v2 = setKey vm "u1" v2) ∧
    getKey (setKey ((getKey (sampleState []).idVoteMap "msg1").getD []) "u1" ⟨Vote.no, true⟩)
      "u1" = some ⟨Vote.no, true⟩ ∧
    ((setKey ((getKey (sampleState []).idVoteMap "msg1").getD []) "u1" ⟨Vote.no, true⟩).filter
      (fun p => p.1 == "u1")).length = 1 :=
  second_vote_overwrites_first (sampleState []) "msg1" "u1" sampleSuggestion
    (by decide) (by decide)

/-- C7: when the accepted suggestion's nickname persist raises the
uniqueness-constraint error (the row already exists), the handler catches it
and replies with the user-visible failure reply instead of crashing, performs
no retry, and does not report the suggestion accepted — the nickname table is
left unchanged. -/
theorem persist_conflict_is_caught (st : BotState) (messageId userId : String)
    (sugg : Suggestion)
    (hsugg : getKey st.ongoingSuggestions messageId = some sugg)
    (hdup : (sugg.nicknameUserID, sugg.nickname) ∈ st.nicknames)
    (hno : tallyWeight (updatedVoteMap st messageId userId Vote.yes) Vote.no < threshold)
    (hyes : threshold ≤ tallyWeight (updatedVoteMap st messageId userId Vote.yes) Vote.yes) :
    handleInteraction st messageId userId true (buttonId Vote.yes) =
      (afterVoteState st messageId userId Vote.yes,
        HandlerReply.persistFailed sugg.nickname sugg.nicknameUserID) ∧
    (afterVoteState st messageId userId Vote.yes).nicknames = st.nicknames := by
  rw [handleInteraction_trusted st messageId userId Vote.yes sugg hsugg,
    if_neg (by omega), if_pos hyes]
  have hins : insertNickname st.nicknames sugg.nicknameUserID sugg.nickname =
      Except.error () := by
    rw [insertNickname, if_pos hdup]
  rw [hins]
  exact ⟨rfl, rfl⟩

/-- A state whose nickname table already holds the sample suggestion's row,
so the accepting persist conflicts. -/
def sampleStateDup : BotState :=
  ⟨[("msg1", sampleSuggestion)], [("msg1", twoTrustedYes)], [("target", "Spitzname")]⟩

/-- Witness for C7: the third trusted "yes" vote reaches the threshold but
the nickname row already exists, so the handler replies with the failure
message and leaves the table unchanged. -/
theorem persist_conflict_is_caught_witness :
    handleInteraction sampleStateDup "msg1" "u3" true (buttonId Vote.yes) =
      (afterVoteState sampleStateDup "msg1" "u3" Vote.yes,
        HandlerReply.persistFailed sampleSuggestion.nickname sampleSuggestion.nicknameUserID) ∧
    (afterVoteState sampleStateDup "msg1" "u3" Vote.yes).nicknames =
      sampleStateDup.nicknames :=
  persist_conflict_is_caught sampleStateDup "msg1" "u3" sampleSuggestion
    (by decide) (by decide) (by decide) (by decide)

/-- C8: creating a nickname vote silently records an initial `YES` vote on
behalf of the target user, keyed by the target's id with the target's trust
flag captured at creation time, so the target's own vote weight already
counts toward acceptance before any button is pressed. -/
theorem create_vote_records_initial_yes (st : BotState)
    (messageId targetUserId nickname : String) (targetIsTrusted : Bool)
    (hfresh : getKey st.idVoteMap messageId = none) :
    getKey (createNickNameVote st messageId targetUserId nickname
      targetIsTrusted).ongoingSuggestions messageId = some ⟨targetUserId, nickname⟩ ∧
    getKey (createNickNameVote st messageId targetUserId nickname
      targetIsTrusted).idVoteMap messageId =
      some [(targetUserId, ⟨Vote.yes, targetIsTrusted⟩)] ∧
    tallyWeight [(targetUserId, ⟨Vote.yes, targetIsTrusted⟩)] Vote.yes =
      getWeightOfUserVote ⟨Vote.yes, targetIsTrusted⟩ ∧
    0 < getWeightOfUserVote ⟨Vote.yes, targetIsTrusted⟩ := by
  refine ⟨?_, ?_, ?_, ?_⟩
  · simp only [createNickNameVote]
    exact getKey_setKey_self _ _ _
  · simp only [createNickNameVote, hfresh, Option.getD_none]
    rw [getKey_setKey_self]
    rfl
  · cases targetIsTrusted <;> rfl
  · cases targetIsTrusted <;> decide

/-- Witness for C8: creating the sample vote in an empty state records the
target's own `YES` vote (target untrusted here, weight 1). -/
theorem create_vote_records_initial_yes_witness :
    getKey (createNickNameVote ⟨[], [], []⟩ "msg1" "target" "Spitzname"
      false).ongoingSuggestions "msg1" = some ⟨"target", "Spitzname"⟩ ∧
    getKey (createNickNameVote ⟨[], [], []⟩ "msg1" "target" "Spitzname"
      false).idVoteMap "msg1" = some [("target", ⟨Vote.yes, false⟩)] ∧
    tallyWeight [("target", ⟨Vote.yes, false⟩)] Vote.yes =
      getWeightOfUserVote ⟨Vote.yes, false⟩ ∧
    0 < getWeightOfUserVote ⟨Vote.yes, false⟩ :=
  create_vote_records_initial_yes ⟨[], [], []⟩ "msg1" "target" "Spitzname" false (by decide)

/-! ## Helper lemmas about the loot store -/

theorem softDeleted_map_not_active (loots : List LootRow) (lootId : Nat) (now t : Nat)
    (ht : now ≤ t) (r : LootRow)
    (hr : r ∈ loots.map (fun r0 =>
      if r0.id == lootId then { r0 with deletedAt := some now } else r0))
    (hid : r.id = lootId) : notDeleted t r = false := by
  rcases List.mem_map.mp hr with ⟨r0, hr0, heq⟩
  by_cases h : r0.id == lootId
  · rw [if_pos h] at heq
    subst heq
    simp only [notDeleted, notDeletedAt, decide_eq_false_iff_not]
    omega
  · rw [if_neg h] at heq
    subst heq
    exact absurd hid (by simpa using h)

/-- A concrete active loot row owned by `"alice"`. -/
def sampleLoot : LootRow :=
  ⟨1, "Ehrenmann", "sehr selten", 3, none, "alice", 10, "g1", "c1", "m1", "drop", none, none⟩

/-- A store holding just `sampleLoot`. -/
def sampleDb : LootDb := ⟨[sampleLoot], [], 2, 1⟩

/-- The sample loot already soft-deleted in the past (at instant 5). -/
def sampleLootDeleted : LootRow :=
  ⟨1, "Ehrenmann", "sehr selten", 3, none, "alice", 10, "g1", "c1", "m1", "drop", none, some 5⟩

/-- A store holding just the soft-deleted sample loot. -/
def sampleDbDeleted : LootDb := ⟨[sampleLootDeleted], [], 2, 1⟩

/-- C5: after `deleteLoot` succeeds at database time `now`, the deleted loot
appears in no active-loot query result evaluated at any time `t ≥ now`
(`findOfUser`, `findOfMessage`, `getUserLootsByTypeId`, `getUserLootById`,
`getLootsByKindId`, `getUserLootsWithAttribute`, `getLootsWithAttribute`),
where a loot is active iff its `deletedAt` is null or strictly in the
future relative to query time. -/
theorem delete_loot_excludes_from_active_queries (db : LootDb) (lootId : Nat) (now t : Nat)
    (hex : db.loot.any (fun r => r.id == lootId) = true) (ht : now ≤ t) :
    ∃ db2 : LootDb, deleteLoot db lootId now = Except.ok (db2, lootId) ∧
      (∀ r ∈ db2.loot, r.id = lootId → notDeleted t r = false) ∧
      (∀ u : String, ∀ r ∈ findOfUser db2 u t, r.id ≠ lootId) ∧
      (∀ mid : String, ∀ r : LootRow, findOfMessage db2 mid t = some r → r.id ≠ lootId) ∧
      (∀ u : String, ∀ kind : Nat, ∀ r ∈ getUserLootsByTypeId db2 u kind t, r.id ≠ lootId) ∧
      (∀ u : String, getUserLootById db2 u lootId t = none) ∧
      (∀ kind : Nat, ∀ r ∈ getLootsByKindId db2 kind t, r.id ≠ lootId) ∧
      (∀ u : String, ∀ kind : Nat, ∀ r ∈ getUserLootsWithAttribute db2 u kind t, r.id ≠ lootId) ∧
      (∀ kind : Nat, ∀ r ∈ getLootsWithAttribute db2 kind t, r.id ≠ lootId) ∧
      (∀ r : LootRow, notDeleted t r = true ↔
        (r.deletedAt = none ∨ ∃ d : Nat, r.deletedAt = some d ∧ t < d)) := by
  refine ⟨{ db with loot := db.loot.map (fun r =>
    if r.id == lootId then { r with deletedAt := some now } else r) }, ?_, ?_, ?_, ?_, ?_, ?_, ?_, ?_, ?_, ?_⟩
  · rw [deleteLoot, if_pos hex]
  · intro r hr hid
    exact softDeleted_map_not_active db.loot lootId now t ht r hr hid
  · intro u r hr hid
    have hm := List.mem_filter.mp hr
    have hf := softDeleted_map_not_active db.loot lootId now t ht r hm.1 hid
    simp [hf] at hm
  · intro mid r h hid
    rcases List.head?_eq_some_iff.mp h with ⟨ys, hys⟩
    have hr := hys.symm ▸ List.mem_cons_self r ys
    have hm := List.mem_filter.mp hr
    have hf := softDeleted_map_not_active db.loot lootId now t ht r hm.1 hid
    simp [hf] at hm
  · intro u kind r hr hid
    have hm := List.mem_filter.mp hr
    have hf := softDeleted_map_not_active db.loot lootId now t ht r hm.1 hid
    simp [hf] at hm
  · intro u
    rw [getUserLootById, List.head?_eq_none_iff, List.filter_eq_nil_iff]
    intro a ha
    by_cases hid : a.id = lootId
    · have hf := softDeleted_map_not_active db.loot lootId now t ht a ha hid
      simp [hf]
    · simp [beq_iff_eq, hid]
  · intro kind r hr hid
    have hm := List.mem_filter.mp hr
    have hf := softDeleted_map_not_active db.loot lootId now t ht r hm.1 hid
    simp [hf] at hm
  · intro u kind r hr hid
    have hm := List.mem_filter.mp hr
    have hf := softDeleted_map_not_active db.loot lootId now t ht r hm.1 hid
    simp [hf] at hm
  · intro kind r hr hid
    have hm := List.mem_filter.mp hr
    have hf := softDeleted_map_not_active db.loot lootId now t ht r hm.1 hid
    simp [hf] at hm
  · intro r
    constructor
    · intro h
      cases hd : r.deletedAt with
      | none => exact Or.inl rfl
      | some d =>
        refine Or.inr ⟨d, rfl, ?_⟩
        simpa [notDeleted, notDeletedAt, hd] using h
    · rintro (h | ⟨d, hd, hlt⟩) <;> simp [notDeleted, notDeletedAt, *]

/-- Witness for C5: deleting the sample loot at time 20 and querying at
time 30 shows it in no active-query result. -/
theorem delete_loot_excludes_from_active_queries_witness :
    ∃ db2 : LootDb, deleteLoot sampleDb 1 20 = Except.ok (db2, 1) ∧
      (∀ r ∈ db2.loot, r.id = 1 → notDeleted 30 r = false) ∧
      (∀ u : String, ∀ r ∈ findOfUser db2 u 30, r.id ≠ 1) ∧
      (∀ mid : String, ∀ r : LootRow, findOfMessage db2 mid 30 = some r → r.id ≠ 1) ∧
      (∀ u : String, ∀ kind : Nat, ∀ r ∈ getUserLootsByTypeId db2 u kind 30, r.id ≠ 1) ∧
      (∀ u : String, getUserLootById db2 u 1 30 = none) ∧
      (∀ kind : Nat, ∀ r ∈ getLootsByKindId db2 kind 30, r.id ≠ 1) ∧
      (∀ u : String, ∀ kind : Nat, ∀ r ∈ getUserLootsWithAttribute db2 u kind 30, r.id ≠ 1) ∧
      (∀ kind : Nat, ∀ r ∈ getLootsWithAttribute db2 kind 30, r.id ≠ 1) ∧
      (∀ r : LootRow, notDeleted 30 r = true ↔
        (r.deletedAt = none ∨ ∃ d : Nat, r.deletedAt = some d ∧ 30 < d)) :=
  delete_loot_excludes_from_active_queries sampleDb 1 20 30 (by decide) (by decide)

/-- C4: `transferLootToUser` returns a new loot row whose predecessor equals
the source id exactly when `trackPredecessor` is set (null otherwise), whose
identity is freshly assigned (never the copied id), whose owner is the new
owner and whose origin is forced to `"owner-transfer"`, and the original
loot is no longer active afterwards. -/
theorem transfer_loot_lineage (db : LootDb) (lootId : Nat) (newOwner : String)
    (track : Bool) (now : Nat) (oldLoot : LootRow)
    (hfind : db.loot.find? (fun r => r.id == lootId) = some oldLoot)
    (hfresh : ∀ r ∈ db.loot, r.id < db.nextLootId) :
    ∃ db2 : LootDb, ∃ newRow : LootRow,
      transferLootToUser db lootId newOwner track now = Except.ok (db2, newRow) ∧
      newRow.predecessor = (if track then some lootId else none) ∧
      newRow.id = db.nextLootId ∧
      newRow.id ≠ lootId ∧
      newRow.winnerId = newOwner ∧
      newRow.origin = "owner-transfer" ∧
      (∀ t : Nat, now ≤ t → ∀ r ∈ db2.loot, r.id = lootId → notDeleted t r = false) := by
  have hmem : oldLoot ∈ db.loot := List.mem_of_find?_eq_some hfind
  have hp := List.find?_some hfind
  have hoid : oldLoot.id = lootId := by simpa using hp
  have hex : db.loot.any (fun r => r.id == lootId) = true :=
    List.any_eq_true.mpr ⟨oldLoot, hmem, hp⟩
  have hne : lootId ≠ db.nextLootId := by
    have := hfresh oldLoot hmem
    omega
  simp only [transferLootToUser, hfind, deleteLoot, hex, if_true]
  refine ⟨_, _, rfl, rfl, rfl, fun h => hne h.symm, rfl, rfl, ?_⟩
  intro t ht r hr hid
  rcases List.mem_append.mp hr with hmap | hnew
  · exact softDeleted_map_not_active db.loot lootId now t ht r hmap hid
  · rcases List.mem_singleton.mp hnew with rfl
    exact absurd hid.symm hne

/-- Witness for C4: transferring the sample loot to `"bob"` with predecessor
tracking at time 20. -/
theorem transfer_loot_lineage_witness :
    ∃ db2 : LootDb, ∃ newRow : LootRow,
      transferLootToUser sampleDb 1 "bob" true 20 = Except.ok (db2, newRow) ∧
      newRow.predecessor = (if true then some 1 else none) ∧
      newRow.id = sampleDb.nextLootId ∧
      newRow.id ≠ 1 ∧
      newRow.winnerId = "bob" ∧
      newRow.origin = "owner-transfer" ∧
      (∀ t : Nat, 20 ≤ t → ∀ r ∈ db2.loot, r.id = 1 → notDeleted t r = false) :=
  transfer_loot_lineage sampleDb 1 "bob" true 20 sampleLoot (by decide)
    (by intro r hr; rcases List.mem_singleton.mp hr with rfl; decide)

/-- C10: `transferLootToUser` does not require the source loot to be active:
the lookup has no active filter, and the clone copies the `deletedAt` value
the source had before the transfer's soft-delete. For an active source the
clone is active (`deletedAt` null); on an already soft-deleted source the
call succeeds and the clone is itself already soft-deleted. -/
theorem transfer_ignores_source_deletion (db : LootDb) (lootId : Nat) (newOwner : String)
    (track : Bool) (now : Nat) (oldLoot : LootRow)
    (hfind : db.loot.find? (fun r => r.id == lootId) = some oldLoot) :
    ∃ db2 : LootDb, ∃ newRow : LootRow,
      transferLootToUser db lootId newOwner track now = Except.ok (db2, newRow) ∧
      newRow.deletedAt = oldLoot.deletedAt ∧
      (oldLoot.deletedAt = none → newRow.deletedAt = none) ∧
      (∀ d : Nat, oldLoot.deletedAt = some d → newRow.deletedAt = some d) ∧
      (∀ t : Nat, notDeleted t newRow = notDeletedAt t oldLoot.deletedAt) := by
  have hmem : oldLoot ∈ db.loot := List.mem_of_find?_eq_some hfind
  have hp := List.find?_some hfind
  have hex : db.loot.any (fun r => r.id == lootId) = true :=
    List.any_eq_true.mpr ⟨oldLoot, hmem, hp⟩
  simp only [transferLootToUser, hfind, deleteLoot, hex, if_true]
  exact ⟨_, _, rfl, rfl, fun h => h, fun d h => h, fun t => rfl⟩

/-- Witness for C10: transferring the already soft-deleted sample loot
succeeds and the clone carries the past deletion timestamp. -/
theorem transfer_ignores_source_deletion_witness :
    ∃ db2 : LootDb, ∃ newRow : LootRow,
      transferLootToUser sampleDbDeleted 1 "bob" false 20 = Except.ok (db2, newRow) ∧
      newRow.deletedAt = sampleLootDeleted.deletedAt ∧
      (sampleLootDeleted.deletedAt = none → newRow.deletedAt = none) ∧
      (∀ d : Nat, sampleLootDeleted.deletedAt = some d → newRow.deletedAt = some d) ∧
      (∀ t : Nat, notDeleted t newRow = notDeletedAt t sampleLootDeleted.deletedAt) :=
  transfer_ignores_source_deletion sampleDbDeleted 1 "bob" false 20 sampleLootDeleted
    (by decide)

/-- A soft-deleted attribute row (kind 7) attached to the sample loot. -/
def sampleDeletedAttr : LootAttributeRow := ⟨1, 1, 7, 2, "Verstrahlt", "rad", some 3, some 5⟩

/-- A store whose only loot is active while its only kind-7 attribute row is
soft-deleted in the past. -/
def sampleDbDeletedAttr : LootDb := ⟨[sampleLoot], [sampleDeletedAttr], 2, 2⟩

/-- C9: `getUserLootsWithAttribute` and `getLootsWithAttribute` do not filter
the attribute table by soft-deletion: an active loot whose matching attribute
rows all carry a non-null past `deletedAt` is still returned. -/
theorem attribute_queries_ignore_soft_deletion (db : LootDb) (userId : String)
    (attributeKindId : Nat) (t : Nat) (r : LootRow) (a : LootAttributeRow)
    (hr : r ∈ db.loot) (hactive : notDeleted t r = true)
    (ha : a ∈ db.lootAttribute) (haKind : a.attributeKindId = attributeKindId)
    (haLoot : a.lootId = r.id)
    (_hdel : ∀ a2 ∈ db.lootAttribute, a2.lootId = r.id → a2.attributeKindId = attributeKindId →
      ∃ d : Nat, a2.deletedAt = some d ∧ d ≤ t) :
    r ∈ getLootsWithAttribute db attributeKindId t ∧
    (r.winnerId = userId → r ∈ getUserLootsWithAttribute db userId attributeKindId t) := by
  have hhas : hasAttribute db attributeKindId r = true := by
    rw [hasAttribute, List.contains_iff_exists_mem_beq]
    refine ⟨a.lootId, List.mem_map.mpr ⟨a, List.mem_filter.mpr ⟨ha, ?_⟩, rfl⟩, ?_⟩
    · simp [haKind]
    · simp [haLoot]
  constructor
  · exact List.mem_filter.mpr ⟨hr, by simp [hactive, hhas]⟩
  · intro hw
    exact List.mem_filter.mpr ⟨hr, by simp [hactive, hhas, hw]⟩

/-- Witness for C9: the sample store returns the active loot for kind 7 even
though its only kind-7 attribute row was soft-deleted at instant 5 (query
time 30). -/
theorem attribute_queries_ignore_soft_deletion_witness :
    sampleLoot ∈ getLootsWithAttribute sampleDbDeletedAttr 7 30 ∧
    (sampleLoot.winnerId = "alice" →
      sampleLoot ∈ getUserLootsWithAttribute sampleDbDeletedAttr "alice" 7 30) :=
  attribute_queries_ignore_soft_deletion sampleDbDeletedAttr "alice" 7 30 sampleLoot
    sampleDeletedAttr (by decide) (by decide) (by decide) (by decide) (by decide)
    (by intro a2 ha2 h1 h2
        rcases List.mem_singleton.mp ha2 with rfl
        exact ⟨5, rfl, by omega⟩)

/-- C2 (code bug): `addLootAttributeIfNotPresent` does leave exactly one
active attribute row per `(lootId, attributeKindId)`, but the repeated call
is not safe: the conflicting insert does nothing, returns no row, and
`executeTakeFirstOrThrow` therefore raises — evaluated here at a concrete
failing input (loot 1, attribute kind 7, called twice). -/
theorem add_attribute_repeat_call_fails :
    addLootAttributeIfNotPresent ⟨[], [], 1, 1⟩ 1 sampleAttrTemplate =
      Except.ok (⟨[], [sampleAttrRow], 1, 2⟩, sampleAttrRow) ∧
    addLootAttributeIfNotPresent ⟨[], [sampleAttrRow], 1, 2⟩ 1 sampleAttrTemplate =
      Except.error () ∧
    (∀ t : Nat, (((⟨[], [sampleAttrRow], 1, 2⟩ : LootDb)).lootAttribute.filter
      (fun a => a.lootId == 1 && a.attributeKindId == 7 && notDeletedAt t a.deletedAt)).length
        = 1) := by
  refine ⟨by rfl, by rfl, ?_⟩
  intro t
  simp [sampleAttrRow, notDeletedAt]

end CSCBot
